import Mathlib

/-!
Shallow embedding of the gobench HTTP load generator (gobench.go).

Go machine integers (`int64`, `int`) are modelled as `Int`; byte slices as
`List Nat`; fallible operations as `Except`.  External collaborators
(`url.Parse`, file reading, the TCP stack, the HDR histogram) are modelled
at their interface: parsed URLs are explicit records, file contents are
carried in the flag record, network outcomes are supplied by an oracle, and
the histogram is the list of values recorded into it.
-/

set_option maxHeartbeats 1000000
set_option linter.unusedVariables false

namespace Gobench

/-- Parsed URL, the fields of Go `net/url.URL` the program uses: scheme,
hostname, and the explicit port when one is present.  `url.Parse` itself is
an external collaborator; its successful result is this record. -/
structure URL where
  scheme : String
  hostname : String
  port : Option Nat
deriving Repr, DecidableEq

/-- Go `u.Host`: hostname, with `:port` appended when an explicit port is
present. -/
def URL.Host (u : URL) : String :=
  match u.port with
  | some p => u.hostname ++ ":" ++ toString p
  | none => u.hostname

/-- gobench.go `parseHostname` (lines 383-389): returns `u.Host` of the
parsed URL. -/
def parseHostname (u : URL) : String :=
  u.Host

/-- gobench.go `parseAddress` (lines 391-407): if the URL has no explicit
port, append `:443` for scheme `https`, `:80` for scheme `http`, and call
`log.Fatal` (modelled as `.error`) for any other scheme; then return
`u.Host`. -/
def parseAddress (u : URL) : Except String String :=
  match u.port with
  | some _ => .ok u.Host
  | none =>
    match u.scheme with
    | "https" => .ok (u.Host ++ ":443")
    | "http" => .ok (u.Host ++ ":80")
    | s => .error ("Unable to decode scheme " ++ s)

/-- The command-line flag variables of gobench.go (lines 26-45) with their
`init` defaults (lines 127-146), plus the results of the external file
reads: `urlsFileLines` is what `readLines urlsFilePath` returns and
`postDataContents` what `ioutil.ReadFile postDataFilePath` returns (files
assumed readable; unreadable files are a pre-run fatal outside these
claims), and `targetURLParsed` is the `url.Parse` of `targetURL`. -/
structure Flags where
  requests : Int := -1
  period : Int := -1
  targetURL : String := ""
  urlsFilePath : String := ""
  keepAlive : Bool := false
  postDataFilePath : String := ""
  authHeader : String := ""
  hostHeader : String := ""
  resolve : String := ""
  mtlsCertFile : String := ""
  mtlsKeyFile : String := ""
  insecureSkipVerify : Bool := false
  urlsFileLines : List String := []
  postDataContents : List Nat := []
  targetURLParsed : URL := ⟨"", "", none⟩
deriving Repr, DecidableEq

/-- The `Configuration` struct of gobench.go (lines 47-57) together with the
parts of the embedded `http.Client` the claims are about: the TLS
`ServerName` (line 354) and the URL the dial function closes over
(lines 321-324). -/
structure Configuration where
  urls : List String
  method : String
  postData : Option (List Nat)
  requests : Int
  period : Int
  keepAlive : Bool
  authHeader : String
  serverName : String
  dialURL : URL
  insecureSkipVerify : Bool
deriving Repr, DecidableEq

/-- gobench.go `NewConfiguration` (lines 248-381).  The five validation
checks exit the process with status 1 (modelled as `.error 1`); otherwise
the configuration is built: default request limit `int64((1 << 63) - 1)`,
URLs from the list file and then the single target URL, method `POST` with
the file contents as body exactly when a POST-data file path was given,
TLS `ServerName` from the resolve override when supplied and otherwise from
`parseHostname targetURL`, and a dial function that always dials
`targetURL`.  The duration timer goroutine (lines 289-305) is the external
termination collaborator and has no effect on the returned value. -/
def NewConfiguration (f : Flags) : Except Nat Configuration :=
  if f.urlsFilePath = "" ∧ f.targetURL = "" then
    .error 1
  else if f.urlsFilePath ≠ "" ∧
      (f.hostHeader ≠ "" ∨ f.targetURL ≠ "" ∨ f.authHeader ≠ "" ∨ f.resolve ≠ "") then
    .error 1
  else if f.requests = -1 ∧ f.period = -1 then
    .error 1
  else if f.requests ≠ -1 ∧ f.period ≠ -1 then
    .error 1
  else if (f.mtlsKeyFile ≠ "" ∧ f.mtlsCertFile = "") ∨
      (f.mtlsKeyFile = "" ∧ f.mtlsCertFile ≠ "") then
    .error 1
  else
    .ok
      { urls :=
          (if f.urlsFilePath ≠ "" then f.urlsFileLines else []) ++
            (if f.targetURL ≠ "" then [f.targetURL] else [])
        method := if f.postDataFilePath ≠ "" then "POST" else "GET"
        postData := if f.postDataFilePath ≠ "" then some f.postDataContents else none
        requests := if f.requests ≠ -1 then f.requests else 2 ^ 63 - 1
        period := if f.period ≠ -1 then f.period else 0
        keepAlive := f.keepAlive
        authHeader := f.authHeader
        serverName := if f.resolve ≠ "" then f.resolve else parseHostname f.targetURLParsed
        dialURL := f.targetURLParsed
        insecureSkipVerify := f.insecureSkipVerify }

/-- The dial function installed in the transport (gobench.go lines 321-324):
it ignores the `network` and `addr` arguments handed to it by the HTTP
client and always dials `parseAddress targetURL`.  `net.Dial` itself is the
external TCP stack; what the program determines is the address handed to
it, which this function returns. -/
def dialFunction (c : Configuration) (network addr : String) : Except String String :=
  parseAddress c.dialURL

/-- The request the worker builds for one attempt (gobench.go lines
430-438): `http.NewRequest(configuration.method, tmpUrl, nil)` — the body
argument is the literal `nil` — then `req.Close = !keepAlive`, the
`Authorization` header when `len(authHeader) > 0`, and `req.Host =
hostHeader` (the guard `&hostHeader != nil` on line 436 is always true). -/
structure Request where
  method : String
  url : String
  body : Option (List Nat)
  close : Bool
  authHeader : Option String
  host : String
deriving Repr, DecidableEq

/-- Build the request for one attempt, gobench.go lines 430-438. -/
def buildRequest (c : Configuration) (hostHeader : String) (tmpUrl : String) : Request :=
  { method := c.method
    url := tmpUrl
    body := none
    close := !c.keepAlive
    authHeader := if c.authHeader.length > 0 then some c.authHeader else none
    host := hostHeader }

/-- Result of one call into the wrapped `net.Conn`: the byte count `n` and
the error value (`none` for Go `nil`). -/
structure ConnCallResult where
  n : Int
  err : Option String
deriving Repr, DecidableEq

/-- gobench.go `MyConn.Read` (lines 80-88).  The underlying `Conn.Read` is
external; its result `(len, err)` and the buffer contents it produced are
inputs.  The wrapper adds `len` to the global `readThroughput` counter when
`err == nil`, and returns `(len, err)` and the buffer untouched. -/
def MyConn.Read (readThroughput : Int) (underlying : ConnCallResult)
    (buf : List Nat) : Int × ConnCallResult × List Nat :=
  let len := underlying.n
  let err := underlying.err
  let counter := if err = none then readThroughput + len else readThroughput
  (counter, ⟨len, err⟩, buf)

/-- gobench.go `MyConn.Write` (lines 90-98): identical to `Read` but on the
global `writeThroughput` counter. -/
def MyConn.Write (writeThroughput : Int) (underlying : ConnCallResult)
    (buf : List Nat) : Int × ConnCallResult × List Nat :=
  let len := underlying.n
  let err := underlying.err
  let counter := if err = none then writeThroughput + len else writeThroughput
  (counter, ⟨len, err⟩, buf)

/-- The `Result` struct of gobench.go (lines 59-64): the per-worker
counters, Go `int64`. -/
structure Result where
  requests : Int
  success : Int
  networkFailed : Int
  badFailed : Int
deriving Repr, DecidableEq

/-- The `resp` struct of gobench.go (lines 66-70): one outcome record sent
to the aggregator over `respChan`. -/
structure Resp where
  status : Int
  latency : Int
  size : Int
deriving Repr, DecidableEq

/-- What the external HTTP round trip (`configuration.myClient.Do`, line
441) produces for one attempt: a transport error, or a response with
status, body and headers; `elapsed` is the measured latency in
milliseconds (lines 440-443). -/
inductive Outcome where
  | netError (elapsed : Int)
  | response (status : Int) (elapsed : Int) (body : List Nat)
      (headers : List (String × List String))
deriving Repr, DecidableEq

/-- The response size accounting of lines 459-465: `len(body) + 2`, then
for each header its values each contribute `len(s) + 2` and the key
contributes `len(key) + 2`. -/
def respSize (body : List Nat) (headers : List (String × List String)) : Int :=
  headers.foldl
    (fun acc kv =>
      kv.2.foldl (fun a s => a + (s.length : Int) + 2) acc + (kv.1.length : Int) + 2)
    ((body.length : Int) + 2)

/-- One request attempt of the worker loop body (gobench.go lines 440-484):
produce the outcome record this attempt sends to `respChan`, increment
`requests`, and bump exactly one of `networkFailed` (transport error),
`success` (status in [200,300)) or `badFailed` (any other status). -/
def clientStep (o : Outcome) (r : Result) : Result × Resp :=
  match o with
  | .netError elapsed =>
    ({ r with requests := r.requests + 1, networkFailed := r.networkFailed + 1 },
      { status := 0, latency := elapsed, size := 0 })
  | .response status elapsed body headers =>
    let out : Resp := { status := status, latency := elapsed, size := respSize body headers }
    let r1 : Result := { r with requests := r.requests + 1 }
    if 200 ≤ status ∧ status < 300 then
      ({ r1 with success := r1.success + 1 }, out)
    else
      ({ r1 with badFailed := r1.badFailed + 1 }, out)

/-- The inner loop of the worker (gobench.go line 428): one full pass over
the URL list in order.  The oracle gives the outcome of the n-th request
this worker issues, indexed by the running `r.requests`; the outcome
records emitted and the URLs requested are accumulated in reverse. -/
def clientPass (oracle : Int → Outcome) :
    List String → Result → List Resp → List String →
      Result × List Resp × List String
  | [], r, recs, issued => (r, recs, issued)
  | tmpUrl :: rest, r, recs, issued =>
    let step := clientStep (oracle r.requests) r
    clientPass oracle rest step.1 (step.2 :: recs) (tmpUrl :: issued)

theorem clientStep_requests (o : Outcome) (r : Result) :
    (clientStep o r).1.requests = r.requests + 1 := by
  cases o with
  | netError e => rfl
  | response s e b hs =>
    simp only [clientStep]
    split <;> rfl

theorem clientPass_requests (oracle : Int → Outcome) (urls : List String)
    (r : Result) (recs : List Resp) (issued : List String) :
    (clientPass oracle urls r recs issued).1.requests = r.requests + urls.length := by
  induction urls generalizing r recs issued with
  | nil => simp [clientPass]
  | cons u rest ih =>
    simp only [clientPass]
    rw [ih, clientStep_requests]
    simp only [List.length_cons]
    push_cast
    ring

/-- The worker loop (gobench.go lines 427-486): while `result.requests <
configuration.requests`, run one full pass over the URL list.  The
conjunct `urls ≠ []` in the guard is the termination device of this
embedding: on an empty URL list a pass issues no request, so the Go loop
never terminates; the claims only reach non-empty lists. -/
def clientLoop (limit : Int) (urls : List String) (oracle : Int → Outcome)
    (r : Result) (recs : List Resp) (issued : List String) :
    Result × List Resp × List String :=
  if h : r.requests < limit ∧ urls ≠ [] then
    clientLoop limit urls oracle (clientPass oracle urls r recs issued).1
      (clientPass oracle urls r recs issued).2.1
      (clientPass oracle urls r recs issued).2.2
  else
    (r, recs, issued)
termination_by (limit - r.requests).toNat
decreasing_by
  obtain ⟨h1, h2⟩ := h
  have hp := clientPass_requests oracle urls r recs issued
  have hlen : urls.length ≠ 0 := fun hh => h2 (List.length_eq_zero.mp hh)
  simp only [hp]
  omega

/-- gobench.go `client` (lines 423-489): run the worker loop from the
zero-valued `Result` that `main` allocates for this worker (line 532),
returning the final counters, the outcome records sent to `respChan` in
order, and the URLs requested in order. -/
def client (c : Configuration) (oracle : Int → Outcome) :
    Result × List Resp × List String :=
  let final := clientLoop c.requests c.urls oracle ⟨0, 0, 0, 0⟩ [] []
  (final.1, final.2.1.reverse, final.2.2.reverse)

/-- Aggregator state of `main` (gobench.go lines 496-500): the histogram
modelled as the list of latency values recorded into it (line 544), the
2xx message count (line 497), and the running maximum latency used by
`-m` (line 496). -/
structure AggState where
  messageCount : Int
  recorded : List Int
  maxLatency : Int
deriving Repr, DecidableEq

/-- One `respChan` case of the aggregation loop (gobench.go lines
541-551): only for a status in [200,300) is the message counted, the
latency recorded into the histogram, and, when `-m` is on, the running
maximum updated. -/
def aggStep (trackMaxLatency : Bool) (st : AggState) (res : Resp) : AggState :=
  if 200 ≤ res.status ∧ res.status < 300 then
    { messageCount := st.messageCount + 1
      recorded := st.recorded ++ [res.latency]
      maxLatency :=
        if trackMaxLatency ∧ (st.maxLatency < 0 ∨ res.latency > st.maxLatency) then
          res.latency
        else
          st.maxLatency }
  else
    st

/-- The initial aggregator state of `main`: histogram empty (line 500),
`messageCount = 0` (line 497), `maxLatency = -1` (line 496). -/
def aggInit : AggState :=
  { messageCount := 0, recorded := [], maxLatency := -1 }

/-- Aggregation of a sequence of outcome records drained from `respChan`. -/
def aggregate (trackMaxLatency : Bool) (resps : List Resp) : AggState :=
  resps.foldl (aggStep trackMaxLatency) aggInit

/-- Number of passes the worker loop makes before its guard fails, as a
recursion mirroring the loop: each pass adds `k` (the URL-list length) to
the issued count, and the guard `requests < limit` is re-evaluated only
between passes. -/
def numPasses (limit issued : Int) (k : Nat) : Nat :=
  if h : 0 < k ∧ issued < limit then
    numPasses limit (issued + k) k + 1
  else
    0
termination_by (limit - issued).toNat
decreasing_by
  obtain ⟨h1, h2⟩ := h
  omega

theorem numPasses_step (limit issued : Int) (k : Nat) (hk : 0 < k)
    (hlt : issued < limit) :
    numPasses limit issued k = numPasses limit (issued + k) k + 1 := by
  rw [numPasses, dif_pos ⟨hk, hlt⟩]

theorem numPasses_stop (limit issued : Int) (k : Nat)
    (h : ¬(0 < k ∧ issued < limit)) :
    numPasses limit issued k = 0 := by
  rw [numPasses, dif_neg h]

theorem numPasses_eq_ceil (limit issued : Int) (k : Nat) :
    0 < k → numPasses limit issued k = ((limit - issued).toNat + k - 1) / k := by
  induction issued, k using numPasses.induct limit with
  | case1 issued k hg ih =>
    intro hk
    rw [numPasses_step limit issued k hg.1 hg.2, ih hk]
    set m := (limit - issued).toNat with hm
    have h1 : (limit - (issued + k)).toNat = m - k := by omega
    have hm1 : 1 ≤ m := by omega
    have hrw : m + k - 1 = m - 1 + k := by omega
    rw [h1, hrw, Nat.add_div_right _ hk]
    rcases le_or_lt k m with hge | hlt
    · have h2 : m - k + k - 1 = m - 1 := by omega
      rw [h2]
    · have h0 : m - k = 0 := by omega
      rw [h0, Nat.div_eq_of_lt (show 0 + k - 1 < k by omega),
        Nat.div_eq_of_lt (show m - 1 < k by omega)]
  | case2 issued k hg =>
    intro hk
    have hnl : ¬issued < limit := fun hx => hg ⟨hk, hx⟩
    have h0 : (limit - issued).toNat = 0 := by omega
    rw [numPasses_stop limit issued k hg, h0,
      Nat.div_eq_of_lt (show 0 + k - 1 < k by omega)]

theorem clientStep_sum (o : Outcome) (r : Result) :
    (clientStep o r).1.success + (clientStep o r).1.networkFailed +
        (clientStep o r).1.badFailed
      = r.success + r.networkFailed + r.badFailed + 1 := by
  cases o with
  | netError e => simp [clientStep]; ring
  | response s e b hs =>
    simp only [clientStep]
    split <;> simp <;> ring

theorem clientStep_mono (o : Outcome) (r : Result) :
    r.requests ≤ (clientStep o r).1.requests ∧
    r.success ≤ (clientStep o r).1.success ∧
    r.networkFailed ≤ (clientStep o r).1.networkFailed ∧
    r.badFailed ≤ (clientStep o r).1.badFailed := by
  cases o with
  | netError e => refine ⟨?_, ?_, ?_, ?_⟩ <;> simp [clientStep]
  | response s e b hs =>
    simp only [clientStep]
    split <;> refine ⟨?_, ?_, ?_, ?_⟩ <;> simp

theorem clientPass_issued (oracle : Int → Outcome) (urls : List String)
    (r : Result) (recs : List Resp) (issued : List String) :
    (clientPass oracle urls r recs issued).2.2 = urls.reverse ++ issued := by
  induction urls generalizing r recs issued with
  | nil => simp [clientPass]
  | cons u rest ih => simp [clientPass, ih]

theorem clientPass_recsLen (oracle : Int → Outcome) (urls : List String)
    (r : Result) (recs : List Resp) (issued : List String) :
    (clientPass oracle urls r recs issued).2.1.length = recs.length + urls.length := by
  induction urls generalizing r recs issued with
  | nil => simp [clientPass]
  | cons u rest ih =>
    simp only [clientPass, ih]
    simp
    omega

theorem clientPass_sum (oracle : Int → Outcome) (urls : List String)
    (r : Result) (recs : List Resp) (issued : List String) :
    (clientPass oracle urls r recs issued).1.success +
        (clientPass oracle urls r recs issued).1.networkFailed +
        (clientPass oracle urls r recs issued).1.badFailed
      = r.success + r.networkFailed + r.badFailed + urls.length := by
  induction urls generalizing r recs issued with
  | nil => simp [clientPass]
  | cons u rest ih =>
    simp only [clientPass]
    rw [ih]
    have hs := clientStep_sum (oracle r.requests) r
    simp only [List.length_cons]
    push_cast
    omega

theorem clientPass_mono (oracle : Int → Outcome) (urls : List String)
    (r : Result) (recs : List Resp) (issued : List String) :
    r.requests ≤ (clientPass oracle urls r recs issued).1.requests ∧
    r.success ≤ (clientPass oracle urls r recs issued).1.success ∧
    r.networkFailed ≤ (clientPass oracle urls r recs issued).1.networkFailed ∧
    r.badFailed ≤ (clientPass oracle urls r recs issued).1.badFailed := by
  induction urls generalizing r recs issued with
  | nil => simp [clientPass]
  | cons u rest ih =>
    simp only [clientPass]
    have h1 := clientStep_mono (oracle r.requests) r
    have h2 := ih (clientStep (oracle r.requests) r).1
      ((clientStep (oracle r.requests) r).2 :: recs) (u :: issued)
    exact ⟨le_trans h1.1 h2.1, le_trans h1.2.1 h2.2.1,
      le_trans h1.2.2.1 h2.2.2.1, le_trans h1.2.2.2 h2.2.2.2⟩

theorem clientLoop_requests (limit : Int) (urls : List String)
    (oracle : Int → Outcome) (r : Result) (recs : List Resp)
    (issued : List String) :
    (clientLoop limit urls oracle r recs issued).1.requests
      = r.requests + (numPasses limit r.requests urls.length) * urls.length := by
  induction r, recs, issued using clientLoop.induct limit urls oracle with
  | case1 r recs issued h ih =>
    rw [clientLoop, dif_pos h, ih, clientPass_requests]
    have hk : 0 < urls.length := List.length_pos.mpr h.2
    rw [numPasses_step limit r.requests urls.length hk h.1]
    push_cast
    ring
  | case2 r recs issued h =>
    have hg : ¬(0 < urls.length ∧ r.requests < limit) := by
      rcases not_and_or.mp h with h1 | h1
      · exact fun hc => h1 hc.2
      · have hnil : urls = [] := not_not.mp h1
        simp [hnil]
    rw [clientLoop, dif_neg h, numPasses_stop limit r.requests urls.length hg]
    simp

theorem clientLoop_count (limit : Int) (urls : List String)
    (oracle : Int → Outcome) (r : Result) (recs : List Resp)
    (issued : List String) (u : String) :
    ((clientLoop limit urls oracle r recs issued).2.2).count u
      = (numPasses limit r.requests urls.length) * urls.count u + issued.count u := by
  induction r, recs, issued using clientLoop.induct limit urls oracle with
  | case1 r recs issued h ih =>
    rw [clientLoop, dif_pos h, ih, clientPass_requests, clientPass_issued]
    have hk : 0 < urls.length := List.length_pos.mpr h.2
    rw [numPasses_step limit r.requests urls.length hk h.1,
      List.count_append, List.count_reverse]
    ring
  | case2 r recs issued h =>
    have hg : ¬(0 < urls.length ∧ r.requests < limit) := by
      rcases not_and_or.mp h with h1 | h1
      · exact fun hc => h1 hc.2
      · have hnil : urls = [] := not_not.mp h1
        simp [hnil]
    rw [clientLoop, dif_neg h, numPasses_stop limit r.requests urls.length hg]
    simp

theorem clientLoop_sum (limit : Int) (urls : List String)
    (oracle : Int → Outcome) (r : Result) (recs : List Resp)
    (issued : List String) :
    (clientLoop limit urls oracle r recs issued).1.success +
        (clientLoop limit urls oracle r recs issued).1.networkFailed +
        (clientLoop limit urls oracle r recs issued).1.badFailed
      = r.success + r.networkFailed + r.badFailed +
          (numPasses limit r.requests urls.length) * urls.length := by
  induction r, recs, issued using clientLoop.induct limit urls oracle with
  | case1 r recs issued h ih =>
    rw [clientLoop, dif_pos h, ih, clientPass_sum, clientPass_requests]
    have hk : 0 < urls.length := List.length_pos.mpr h.2
    rw [numPasses_step limit r.requests urls.length hk h.1]
    push_cast
    ring
  | case2 r recs issued h =>
    have hg : ¬(0 < urls.length ∧ r.requests < limit) := by
      rcases not_and_or.mp h with h1 | h1
      · exact fun hc => h1 hc.2
      · have hnil : urls = [] := not_not.mp h1
        simp [hnil]
    rw [clientLoop, dif_neg h, numPasses_stop limit r.requests urls.length hg]
    simp

theorem clientLoop_mono (limit : Int) (urls : List String)
    (oracle : Int → Outcome) (r : Result) (recs : List Resp)
    (issued : List String) :
    r.requests ≤ (clientLoop limit urls oracle r recs issued).1.requests ∧
    r.success ≤ (clientLoop limit urls oracle r recs issued).1.success ∧
    r.networkFailed ≤ (clientLoop limit urls oracle r recs issued).1.networkFailed ∧
    r.badFailed ≤ (clientLoop limit urls oracle r recs issued).1.badFailed := by
  induction r, recs, issued using clientLoop.induct limit urls oracle with
  | case1 r recs issued h ih =>
    rw [clientLoop, dif_pos h]
    have h1 := clientPass_mono oracle urls r recs issued
    exact ⟨le_trans h1.1 ih.1, le_trans h1.2.1 ih.2.1,
      le_trans h1.2.2.1 ih.2.2.1, le_trans h1.2.2.2 ih.2.2.2⟩
  | case2 r recs issued h =>
    rw [clientLoop, dif_neg h]
    exact ⟨le_refl _, le_refl _, le_refl _, le_refl _⟩

/-- The success test of lines 480 and 542: status in [200,300). -/
def is2xx (status : Int) : Bool :=
  decide (200 ≤ status ∧ status < 300)

theorem foldl_aggStep_recorded (trackMax : Bool) (resps : List Resp) (st : AggState) :
    (resps.foldl (aggStep trackMax) st).recorded
      = st.recorded ++ (resps.filter (fun x => is2xx x.status)).map (fun x => x.latency) := by
  induction resps generalizing st with
  | nil => simp
  | cons a rest ih =>
    simp only [List.foldl_cons, ih, List.filter_cons]
    by_cases hc : 200 ≤ a.status ∧ a.status < 300
    · rw [aggStep, if_pos hc]
      simp [is2xx, hc]
    · rw [aggStep, if_neg hc]
      simp [is2xx, hc]

theorem lt_ceil_mul (L k : Nat) (hk : 0 < k) (hnd : ¬k ∣ L) :
    L < (L + k - 1) / k * k := by
  have hL : 1 ≤ L := by
    rcases Nat.eq_zero_or_pos L with h0 | h1
    · exact absurd (h0 ▸ dvd_zero k) hnd
    · exact h1
  have hmod : k * (L / k) + L % k = L := Nat.div_add_mod L k
  have hlt : L % k < k := Nat.mod_lt _ hk
  have hne : L % k ≠ 0 := fun h => hnd (Nat.dvd_of_mod_eq_zero h)
  have he : L + k - 1 = (L % k - 1) + (L / k + 1) * k := by
    have hc : (L / k + 1) * k = k * (L / k) + k := by ring
    omega
  rw [he, Nat.add_mul_div_right _ _ hk,
    Nat.div_eq_of_lt (show L % k - 1 < k by omega)]
  have hc : (0 + (L / k + 1)) * k = k * (L / k) + k := by ring
  omega

/-- The `requests == success + networkFailed + badFailed` relation on a
worker's counters. -/
def counterInv (r : Result) : Prop :=
  r.requests = r.success + r.networkFailed + r.badFailed

/-- Flags of a POST run: `-r 1 -u http://example.com/ -d body.txt` where
`body.txt` holds the two bytes `hi`. -/
def postFlags : Flags :=
  { requests := 1
    targetURL := "http://example.com/"
    postDataFilePath := "body.txt"
    postDataContents := [104, 105]
    targetURLParsed := ⟨"http", "example.com", none⟩ }

/-- C1: the spec says every request a worker builds under a POST
configuration (POST-body file supplied, `configuration.postData` the file
contents) carries that body.  The code contradicts this: `NewConfiguration`
stores the file contents in `postData` and switches the method to `POST`
(lines 366-376), but the worker builds every request with
`http.NewRequest(configuration.method, tmpUrl, nil)` (line 430) — the body
argument is the literal `nil` and `postData` is never consulted, so the
issued request has no body.  This theorem evaluates the embedding at the
failing input: a run with `-d` supplying the two bytes `hi`. -/
theorem claim1_post_body_dropped :
    NewConfiguration postFlags
        = .ok ⟨["http://example.com/"], "POST", some [104, 105], 1, 0, false, "",
            "example.com", ⟨"http", "example.com", none⟩, false⟩ ∧
    (buildRequest
        ⟨["http://example.com/"], "POST", some [104, 105], 1, 0, false, "",
          "example.com", ⟨"http", "example.com", none⟩, false⟩
        "" "http://example.com/").body = none :=
  ⟨rfl, rfl⟩

/-- C3: for every completed attempt: on a transport error the emitted
outcome record is status 0 / size 0 and `networkFailed` is incremented; on
a response the record carries the actual status, and `success` is
incremented when the status is in [200,300), `badFailed` otherwise;
`requests` is incremented exactly once in every case, and the attempt
yields exactly this one record and one classification (no retry). -/
theorem claim3_attempt_classification (o : Outcome) (r : Result) :
    (clientStep o r).1.requests = r.requests + 1 ∧
    (match o with
     | .netError e =>
        (clientStep o r).2 = ⟨0, e, 0⟩ ∧
        (clientStep o r).1.networkFailed = r.networkFailed + 1 ∧
        (clientStep o r).1.success = r.success ∧
        (clientStep o r).1.badFailed = r.badFailed
     | .response s e b hs =>
        (clientStep o r).2.status = s ∧
        (clientStep o r).1.networkFailed = r.networkFailed ∧
        (clientStep o r).1.success
            = r.success + (if 200 ≤ s ∧ s < 300 then 1 else 0) ∧
        (clientStep o r).1.badFailed
            = r.badFailed + (if 200 ≤ s ∧ s < 300 then 0 else 1)) := by
  refine ⟨clientStep_requests o r, ?_⟩
  cases o with
  | netError e => exact ⟨rfl, rfl, rfl, rfl⟩
  | response s e b hs =>
    by_cases hc : 200 ≤ s ∧ s < 300 <;> simp [clientStep, hc]

/-- C4: the aggregator records a latency into the histogram iff the
consumed outcome's status is in [200,300): after any run the histogram
contents are exactly the latencies of the 2xx outcomes in order; in
particular for N outcomes that are all 503 the histogram sample count is
0, and for N unreachable outcomes (status 0) the histogram receives no
values. -/
theorem claim4_histogram_2xx_only (trackMax : Bool) (resps : List Resp) :
    (aggregate trackMax resps).recorded
        = (resps.filter (fun x => is2xx x.status)).map (fun x => x.latency) ∧
    (∀ n lat sz,
      (aggregate trackMax (List.replicate n ⟨503, lat, sz⟩)).recorded.length = 0) ∧
    (∀ n lat sz,
      (aggregate trackMax (List.replicate n ⟨0, lat, sz⟩)).recorded = []) := by
  refine ⟨?_, ?_, ?_⟩
  · rw [aggregate, foldl_aggStep_recorded]
    simp [aggInit]
  · intro n lat sz
    rw [aggregate, foldl_aggStep_recorded]
    have hnil : (List.replicate n (⟨503, lat, sz⟩ : Resp)).filter
        (fun x => is2xx x.status) = [] := by
      rw [List.filter_eq_nil_iff]
      intro a ha
      rw [List.eq_of_mem_replicate ha]
      simp [is2xx]
    simp [aggInit, hnil]
  · intro n lat sz
    rw [aggregate, foldl_aggStep_recorded]
    have hnil : (List.replicate n (⟨0, lat, sz⟩ : Resp)).filter
        (fun x => is2xx x.status) = [] := by
      rw [List.filter_eq_nil_iff]
      intro a ha
      rw [List.eq_of_mem_replicate ha]
      simp [is2xx]
    simp [aggInit, hnil]

/-- C5: every counting-connection `Read` (resp. `Write`) whose underlying
call succeeds adds exactly `n` to the global read (resp. write) throughput
counter; on error the counter is unchanged; the `(n, err)` pair is returned
to the caller unmodified and the buffer contents are never altered. -/
theorem claim5_counting_conn (rt wt : Int) (res : ConnCallResult) (buf : List Nat) :
    (MyConn.Read rt res buf).1 = (if res.err = none then rt + res.n else rt) ∧
    (MyConn.Read rt res buf).2.1 = res ∧
    (MyConn.Read rt res buf).2.2 = buf ∧
    (MyConn.Write wt res buf).1 = (if res.err = none then wt + res.n else wt) ∧
    (MyConn.Write wt res buf).2.1 = res ∧
    (MyConn.Write wt res buf).2.2 = buf :=
  ⟨rfl, rfl, rfl, rfl, rfl, rfl⟩

/-- C6: configuration building exits the process with status 1 — before
any worker starts, since `main` calls `NewConfiguration` (line 520) before
dispatching clients (line 531) — in each of these cases: both the request
limit and the duration are set; neither is set; exactly one of the client
certificate and key is supplied; a URL-list file is combined with
host-header override, single target URL, auth header or resolve override;
or no target at all is given. -/
theorem claim6_validation_exits (f : Flags)
    (h : (f.requests ≠ -1 ∧ f.period ≠ -1) ∨
        (f.requests = -1 ∧ f.period = -1) ∨
        ((f.mtlsKeyFile ≠ "" ∧ f.mtlsCertFile = "") ∨
          (f.mtlsKeyFile = "" ∧ f.mtlsCertFile ≠ "")) ∨
        (f.urlsFilePath ≠ "" ∧
          (f.hostHeader ≠ "" ∨ f.targetURL ≠ "" ∨ f.authHeader ≠ "" ∨
            f.resolve ≠ "")) ∨
        (f.urlsFilePath = "" ∧ f.targetURL = "")) :
    NewConfiguration f = .error 1 := by
  unfold NewConfiguration
  split_ifs with g1 g2 g3 g4 g5
  · rfl
  · rfl
  · rfl
  · rfl
  · rfl
  · exfalso
    tauto

/-- Concrete flag vector discharging the hypothesis of C6's theorem:
a target URL is given but neither a request limit nor a duration. -/
theorem claim6_witness :
    NewConfiguration { targetURL := "http://example.com/" } = .error 1 :=
  claim6_validation_exits _ (Or.inr (Or.inl ⟨rfl, rfl⟩))

theorem client_requests (cfg : Configuration) (oracle : Int → Outcome) :
    (client cfg oracle).1.requests
      = (numPasses cfg.requests 0 cfg.urls.length * cfg.urls.length : Nat) := by
  show (clientLoop cfg.requests cfg.urls oracle ⟨0, 0, 0, 0⟩ [] []).1.requests = _
  rw [clientLoop_requests]
  push_cast
  simp

theorem client_count (cfg : Configuration) (oracle : Int → Outcome) (u : String) :
    (client cfg oracle).2.2.count u
      = numPasses cfg.requests 0 cfg.urls.length * cfg.urls.count u := by
  show ((clientLoop cfg.requests cfg.urls oracle ⟨0, 0, 0, 0⟩ [] []).2.2).reverse.count u = _
  rw [List.count_reverse, clientLoop_count]
  simp

theorem client_sum (cfg : Configuration) (oracle : Int → Outcome) :
    (client cfg oracle).1.success + (client cfg oracle).1.networkFailed +
        (client cfg oracle).1.badFailed
      = (numPasses cfg.requests 0 cfg.urls.length * cfg.urls.length : Nat) := by
  show (clientLoop cfg.requests cfg.urls oracle ⟨0, 0, 0, 0⟩ [] []).1.success +
      (clientLoop cfg.requests cfg.urls oracle ⟨0, 0, 0, 0⟩ [] []).1.networkFailed +
      (clientLoop cfg.requests cfg.urls oracle ⟨0, 0, 0, 0⟩ [] []).1.badFailed = _
  rw [clientLoop_sum]
  push_cast
  simp

/-- C2: a count-bounded worker with a 3-URL list and a per-worker request
limit of 9 issues exactly 9 requests and requests each of the 3 URLs
exactly 3 times before exiting: the loop continues while
`requestsIssued < 9` and each cycle iterates the full URL list in order. -/
theorem claim2_round_robin (a b c : String) (oracle : Int → Outcome)
    (cfg : Configuration) (hab : a ≠ b) (hac : a ≠ c) (hbc : b ≠ c)
    (hurls : cfg.urls = [a, b, c]) (hreq : cfg.requests = 9) :
    (client cfg oracle).1.requests = 9 ∧
    (client cfg oracle).2.2.count a = 3 ∧
    (client cfg oracle).2.2.count b = 3 ∧
    (client cfg oracle).2.2.count c = 3 := by
  have hlen : cfg.urls.length = 3 := by rw [hurls]; rfl
  have hnp : numPasses cfg.requests 0 cfg.urls.length = 3 := by
    rw [hreq, hlen, numPasses_eq_ceil _ _ _ (by norm_num)]
    decide
  refine ⟨?_, ?_, ?_, ?_⟩
  · rw [client_requests, hnp, hlen]
    norm_num
  · rw [client_count, hnp, hurls]
    simp [List.count_cons, hab, hac]
  · rw [client_count, hnp, hurls]
    simp [List.count_cons, Ne.symm hab, hbc]
  · rw [client_count, hnp, hurls]
    simp [List.count_cons, Ne.symm hac, Ne.symm hbc]

/-- Concrete run discharging C2's hypotheses: three distinct URLs and
limit 9 with an always-failing transport oracle. -/
theorem claim2_witness :
    (client ⟨["u1", "u2", "u3"], "GET", none, 9, 0, false, "", "", ⟨"", "", none⟩, false⟩
        (fun _ => .netError 0)).1.requests = 9 ∧
    (client ⟨["u1", "u2", "u3"], "GET", none, 9, 0, false, "", "", ⟨"", "", none⟩, false⟩
        (fun _ => .netError 0)).2.2.count "u1" = 3 ∧
    (client ⟨["u1", "u2", "u3"], "GET", none, 9, 0, false, "", "", ⟨"", "", none⟩, false⟩
        (fun _ => .netError 0)).2.2.count "u2" = 3 ∧
    (client ⟨["u1", "u2", "u3"], "GET", none, 9, 0, false, "", "", ⟨"", "", none⟩, false⟩
        (fun _ => .netError 0)).2.2.count "u3" = 3 :=
  claim2_round_robin "u1" "u2" "u3" (fun _ => .netError 0) _
    (by decide) (by decide) (by decide) rfl rfl

/-- Flags of a run with a non-http(s) scheme: `-r 1 -u ftp://h/`. -/
def ftpFlags : Flags :=
  { requests := 1
    targetURL := "ftp://h/"
    targetURLParsed := ⟨"ftp", "h", none⟩ }

/-- C7 counterexample: with target `ftp://h/` — scheme neither `http` nor
`https` — configuration building succeeds, so no fatal error happens
before workers start; the scheme error arises only in `parseAddress`,
which runs inside the dial function during a worker's first request.
Moreover with an explicit port a non-http(s) scheme never fails at all. -/
theorem claim7_counterexample :
    NewConfiguration ftpFlags
        = .ok ⟨["ftp://h/"], "GET", none, 1, 0, false, "", "h",
            ⟨"ftp", "h", none⟩, false⟩ ∧
    parseAddress ⟨"ftp", "h", none⟩
        = .error ("Unable to decode scheme " ++ "ftp") ∧
    parseAddress ⟨"ftp", "h", some 21⟩ = .ok "h:21" :=
  ⟨rfl, rfl, rfl⟩

/-- C7 amended: address resolution uses the URL's explicit port when one
is present (whatever the scheme); otherwise it defaults the port to 80 for
scheme http and 443 for scheme https; when no explicit port is present and
the scheme is neither, the fatal error is raised by `parseAddress` inside
the dial function at a worker's first connection attempt — not before
workers start. -/
theorem claim7_amended (u : URL) :
    (∀ p, u.port = some p → parseAddress u = .ok u.Host) ∧
    (u.port = none → u.scheme = "http" → parseAddress u = .ok (u.Host ++ ":80")) ∧
    (u.port = none → u.scheme = "https" → parseAddress u = .ok (u.Host ++ ":443")) ∧
    (u.port = none → u.scheme ≠ "http" → u.scheme ≠ "https" →
      parseAddress u = .error ("Unable to decode scheme " ++ u.scheme)) ∧
    (∀ (c : Configuration) (network addr : String),
      dialFunction c network addr = parseAddress c.dialURL) := by
  refine ⟨?_, ?_, ?_, ?_, fun c network addr => rfl⟩
  · intro p hp
    simp [parseAddress, hp]
  · intro hp hs
    simp [parseAddress, hp, hs]
  · intro hp hs
    simp [parseAddress, hp, hs]
  · intro hp h1 h2
    simp only [parseAddress, hp]

/-- Concrete URLs discharging the hypotheses of C7's amended theorem:
explicit port, http default, https default, and the failing scheme. -/
theorem claim7_witness :
    parseAddress ⟨"http", "h", some 8080⟩ = .ok (URL.Host ⟨"http", "h", some 8080⟩) ∧
    parseAddress ⟨"http", "h", none⟩ = .ok (URL.Host ⟨"http", "h", none⟩ ++ ":80") ∧
    parseAddress ⟨"https", "h", none⟩ = .ok (URL.Host ⟨"https", "h", none⟩ ++ ":443") ∧
    parseAddress ⟨"ftp", "h", none⟩ = .error ("Unable to decode scheme " ++ "ftp") :=
  ⟨(claim7_amended ⟨"http", "h", some 8080⟩).1 8080 rfl,
   (claim7_amended ⟨"http", "h", none⟩).2.1 rfl rfl,
   (claim7_amended ⟨"https", "h", none⟩).2.2.1 rfl rfl,
   (claim7_amended ⟨"ftp", "h", none⟩).2.2.2.1 rfl (by decide) (by decide)⟩

/-- C8: whenever configuration building succeeds, the TLS `ServerName`
equals the resolve override when one is supplied and the target URL's own
host otherwise, while the dial function still dials the address derived
from the target URL itself, independent of the override. -/
theorem claim8_resolve_decoupling (f : Flags) (c : Configuration)
    (h : NewConfiguration f = .ok c) :
    c.serverName
        = (if f.resolve ≠ "" then f.resolve else f.targetURLParsed.Host) ∧
    c.dialURL = f.targetURLParsed ∧
    (∀ network addr : String,
      dialFunction c network addr = parseAddress f.targetURLParsed) := by
  unfold NewConfiguration at h
  by_cases g1 : f.urlsFilePath = "" ∧ f.targetURL = ""
  · rw [if_pos g1] at h
    exact absurd h (by simp)
  rw [if_neg g1] at h
  by_cases g2 : f.urlsFilePath ≠ "" ∧
      (f.hostHeader ≠ "" ∨ f.targetURL ≠ "" ∨ f.authHeader ≠ "" ∨ f.resolve ≠ "")
  · rw [if_pos g2] at h
    exact absurd h (by simp)
  rw [if_neg g2] at h
  by_cases g3 : f.requests = -1 ∧ f.period = -1
  · rw [if_pos g3] at h
    exact absurd h (by simp)
  rw [if_neg g3] at h
  by_cases g4 : f.requests ≠ -1 ∧ f.period ≠ -1
  · rw [if_pos g4] at h
    exact absurd h (by simp)
  rw [if_neg g4] at h
  by_cases g5 : (f.mtlsKeyFile ≠ "" ∧ f.mtlsCertFile = "") ∨
      (f.mtlsKeyFile = "" ∧ f.mtlsCertFile ≠ "")
  · rw [if_pos g5] at h
    exact absurd h (by simp)
  rw [if_neg g5, Except.ok.injEq] at h
  subst h
  exact ⟨rfl, rfl, fun network addr => rfl⟩

/-- Flags of a run with a resolve override:
`-r 1 -u https://a.example/ -resolve b.example`. -/
def resolveFlags : Flags :=
  { requests := 1
    targetURL := "https://a.example/"
    resolve := "b.example"
    targetURLParsed := ⟨"https", "a.example", none⟩ }

/-- The configuration `NewConfiguration` builds from `resolveFlags`. -/
def resolveConfig : Configuration :=
  ⟨["https://a.example/"], "GET", none, 1, 0, false, "", "b.example",
    ⟨"https", "a.example", none⟩, false⟩

/-- Concrete run discharging C8's hypothesis: the override names
`b.example` for certificate validation while the socket dials
`a.example:443`. -/
theorem claim8_witness :
    resolveConfig.serverName
        = (if resolveFlags.resolve ≠ "" then resolveFlags.resolve
            else resolveFlags.targetURLParsed.Host) ∧
    resolveConfig.dialURL = resolveFlags.targetURLParsed ∧
    dialFunction resolveConfig "tcp" "ignored:443"
      = parseAddress resolveFlags.targetURLParsed := by
  have h := claim8_resolve_decoupling resolveFlags resolveConfig rfl
  exact ⟨h.1, h.2.1, h.2.2 "tcp" "ignored:443"⟩

/-- C9: at every iteration boundary of a worker the counters satisfy
`requests = success + networkFailed + badFailed`, and each of the four
counters is non-decreasing: one attempt preserves the relation and never
decreases a counter, one or more whole passes of the loop preserve the
relation and never decrease a counter, and the full worker run from the
zero counters satisfies the relation. -/
theorem claim9_counter_invariant :
    (∀ (o : Outcome) (r : Result), counterInv r → counterInv (clientStep o r).1) ∧
    (∀ (o : Outcome) (r : Result),
        r.requests ≤ (clientStep o r).1.requests ∧
        r.success ≤ (clientStep o r).1.success ∧
        r.networkFailed ≤ (clientStep o r).1.networkFailed ∧
        r.badFailed ≤ (clientStep o r).1.badFailed) ∧
    (∀ (limit : Int) (urls : List String) (oracle : Int → Outcome) (r : Result)
        (recs : List Resp) (issued : List String), counterInv r →
        counterInv (clientLoop limit urls oracle r recs issued).1) ∧
    (∀ (limit : Int) (urls : List String) (oracle : Int → Outcome) (r : Result)
        (recs : List Resp) (issued : List String),
        r.requests ≤ (clientLoop limit urls oracle r recs issued).1.requests ∧
        r.success ≤ (clientLoop limit urls oracle r recs issued).1.success ∧
        r.networkFailed ≤ (clientLoop limit urls oracle r recs issued).1.networkFailed ∧
        r.badFailed ≤ (clientLoop limit urls oracle r recs issued).1.badFailed) ∧
    (∀ (cfg : Configuration) (oracle : Int → Outcome),
        counterInv (client cfg oracle).1) := by
  refine ⟨?_, clientStep_mono, ?_, clientLoop_mono, ?_⟩
  · intro o r hr
    unfold counterInv at hr ⊢
    have h1 := clientStep_requests o r
    have h2 := clientStep_sum o r
    omega
  · intro limit urls oracle r recs issued hr
    unfold counterInv at hr ⊢
    have h1 := clientLoop_requests limit urls oracle r recs issued
    have h2 := clientLoop_sum limit urls oracle r recs issued
    omega
  · intro cfg oracle
    unfold counterInv
    rw [client_requests, client_sum]

/-- Concrete states discharging C9's invariant hypotheses at the zero
counters. -/
theorem claim9_witness :
    counterInv (clientStep (.netError 7) ⟨0, 0, 0, 0⟩).1 ∧
    counterInv (clientLoop 2 ["u"] (fun _ => .netError 0) ⟨0, 0, 0, 0⟩ [] []).1 :=
  ⟨claim9_counter_invariant.1 (.netError 7) ⟨0, 0, 0, 0⟩ (by simp [counterInv]),
   claim9_counter_invariant.2.2.1 2 ["u"] (fun _ => .netError 0) ⟨0, 0, 0, 0⟩ [] []
     (by simp [counterInv])⟩

/-- C10: a count-bounded worker with request limit L ≥ 1 and k ≥ 1 URLs
issues exactly ceil(L/k)·k requests in total — the limit predicate is
evaluated only between full passes over the URL list — so the issued count
strictly exceeds L whenever L is not a multiple of k. -/
theorem claim10_ceiling_overshoot (L : Nat) (cfg : Configuration)
    (oracle : Int → Outcome) (hL : 1 ≤ L) (hne : cfg.urls ≠ [])
    (hreq : cfg.requests = (L : Int)) :
    (client cfg oracle).1.requests
        = ((L + cfg.urls.length - 1) / cfg.urls.length * cfg.urls.length : Nat) ∧
    (¬(cfg.urls.length ∣ L) → (L : Int) < (client cfg oracle).1.requests) := by
  have hk : 0 < cfg.urls.length := List.length_pos.mpr hne
  have hnp : numPasses cfg.requests 0 cfg.urls.length
      = (L + cfg.urls.length - 1) / cfg.urls.length := by
    rw [hreq, numPasses_eq_ceil _ _ _ hk]
    congr 1
  constructor
  · rw [client_requests, hnp]
  · intro hnd
    rw [client_requests, hnp]
    have hlt := lt_ceil_mul L cfg.urls.length hk hnd
    exact_mod_cast hlt

/-- The 2-URL configuration with limit 5 used to discharge C10's
hypotheses. -/
def cfgTwoUrls : Configuration :=
  ⟨["a", "b"], "GET", none, 5, 0, false, "", "", ⟨"", "", none⟩, false⟩

/-- Concrete run discharging C10's hypotheses: limit 5 over 2 URLs gives
ceil(5/2)·2 = 6 issued requests, strictly more than 5. -/
theorem claim10_witness :
    (client cfgTwoUrls (fun _ => .netError 0)).1.requests = ((6 : Nat) : Int) ∧
    ((5 : Nat) : Int) < (client cfgTwoUrls (fun _ => .netError 0)).1.requests :=
  ⟨(claim10_ceiling_overshoot 5 cfgTwoUrls (fun _ => .netError 0)
      (by decide) (by decide) rfl).1,
   (claim10_ceiling_overshoot 5 cfgTwoUrls (fun _ => .netError 0)
      (by decide) (by decide) rfl).2 (by decide)⟩

end Gobench
